import Mathlib

/-!
Verification of the LLM-Gateway repository core: the llama.cpp process
supervisor (`internal/backend/llamacpp.go`), the binary/artifact downloader
(`internal/downloader`), the configuration (`internal/config`), and the
OpenAI-compatible gateway server (`internal/api`).

Shallow embedding conventions:
* The file system is a map from paths to file contents (byte lists).
  Standard-library file operations keep their Go semantics: `os.Create`
  truncates or creates, `os.Rename` atomically replaces, `os.Remove` deletes.
* Network and archive contents are inputs to the embedded functions
  (a `DlInput` describes what `http.Get` returns, a list of entries
  describes what the archive contains), since the code treats them as
  opaque streams.
* An `io.Copy` that fails after `k` bytes leaves the first `k` bytes in the
  destination file, exactly as in Go.
-/

namespace LLMGW

/-! ## File-system model -/

/-- A file system: maps a path to the byte content of the file there,
`none` when no file exists at that path. -/
abbrev FS := String → Option (List Nat)

/-- Write (create or truncate-and-write) a file. -/
def fsSet (fs : FS) (p : String) (v : List Nat) : FS :=
  fun q => if q = p then some v else fs q

/-- Remove a file (`os.Remove`; removing a missing file is a no-op here,
the Go code ignores the returned error at every call site we model). -/
def fsRemove (fs : FS) (p : String) : FS :=
  fun q => if q = p then none else fs q

/-! ## internal/downloader: DownloadFile

`DownloadFile(url, destPath, label)` downloads a URL to `destPath`.
The environment of one call is captured by `DlInput`: what the HTTP GET
returns and which of the fallible steps fail. -/

/-- Environment of one `DownloadFile` call: the outcome of `http.Get`
and of each fallible file-system step.  `copyFailAfter = some k` means the
`io.Copy` from the response body fails after `k` bytes. -/
structure DlInput where
  mkdirFail : Bool
  httpErr : Bool
  status : Nat
  data : List Nat
  createTmpFail : Bool
  copyFailAfter : Option Nat
  renameFail : Bool
  deriving DecidableEq

/-- The fetch path of `DownloadFile` (everything after the existing-file
check): MkdirAll, http.Get, status check, create `dest + ".download"`,
copy the body into it, rename it onto `dest`.  On a copy or rename error
the temp file is removed.  Returns the new file system and `true` on
success (`nil` error). -/
def downloadFileFetch (fs : FS) (dest : String) (inp : DlInput) : FS × Bool :=
  if inp.mkdirFail then (fs, false)
  else if inp.httpErr then (fs, false)
  else if inp.status ≠ 200 then (fs, false)
  else if inp.createTmpFail then (fs, false)
  else
    let tmp := dest ++ ".download"
    match inp.copyFailAfter with
    | some k => (fsRemove (fsSet fs tmp (List.take k inp.data)) tmp, false)
    | none =>
        let fs1 := fsSet fs tmp inp.data
        if inp.renameFail then (fsRemove fs1 tmp, false)
        else (fsSet (fsRemove fs1 tmp) dest inp.data, true)

/-- `downloader.DownloadFile`: skips the download when `dest` already
exists and is non-empty, otherwise fetches. -/
def downloadFile (fs : FS) (dest : String) (inp : DlInput) : FS × Bool :=
  match fs dest with
  | some content =>
      if content.length > 0 then (fs, true)
      else downloadFileFetch fs dest inp
  | none => downloadFileFetch fs dest inp

/-! ## internal/backend: archive extraction -/

/-- ASCII `strings.ToLower` on one character. -/
def asciiLowerChar (c : Char) : Char :=
  if 'A' ≤ c ∧ c ≤ 'Z' then Char.ofNat (c.toNat + 32) else c

/-- `strings.ToLower` (ASCII; asset and file names are ASCII). -/
def lowerStr (s : String) : String :=
  ⟨s.data.map asciiLowerChar⟩

/-- `strings.HasSuffix`. -/
def strEndsWith (s t : String) : Bool :=
  s.data.drop (s.data.length - t.data.length) == t.data

/-- `filepath.Base` restricted to the slash-separated file-entry names
archives contain (no trailing slash): the segment after the last `/`. -/
def baseName (s : String) : String :=
  ⟨s.data.foldl (fun acc c => if c = '/' then [] else acc ++ [c]) []⟩

/-- One entry of a zip archive, together with the outcome of the fallible
steps used to extract it (`f.Open`, `os.Create`, `io.Copy`). -/
structure ZipEntry where
  name : String
  data : List Nat
  openFail : Bool
  createFail : Bool
  copyFailAfter : Option Nat
  deriving DecidableEq

/-- `extractZipFile(f, dest)`: open the entry, `os.Create(dest)`
(truncating any existing file), copy the entry into it.  A copy that fails
after `k` bytes leaves the first `k` bytes at `dest`: the code has no
cleanup on this path. -/
def extractZipFile (fs : FS) (e : ZipEntry) (dest : String) : FS × Bool :=
  if e.openFail then (fs, false)
  else if e.createFail then (fs, false)
  else
    match e.copyFailAfter with
    | some k => (fsSet fs dest (List.take k e.data), false)
    | none => (fsSet fs dest e.data, true)

/-- The entry loop of `extractFromZip`: extract the entry whose base name
is the server binary to `serverDest` (propagating its error), and on
Windows extract `.dll` siblings into `binDir` best-effort (their errors
are discarded).  The final `Bool` is `true` iff `llama-server` was found
and no fatal error occurred. -/
def extractZipEntries (goos binDir serverDest serverName : String) :
    FS → Bool → List ZipEntry → FS × Bool
  | fs, found, [] => (fs, found)
  | fs, found, e :: rest =>
      let base := baseName e.name
      if base = serverName then
        match extractZipFile fs e serverDest with
        | (fs', true) => extractZipEntries goos binDir serverDest serverName fs' true rest
        | (fs', false) => (fs', false)
      else if goos = "windows" && strEndsWith (lowerStr base) ".dll" then
        let (fs', _) := extractZipFile fs e (binDir ++ "/" ++ base)
        extractZipEntries goos binDir serverDest serverName fs' found rest
      else extractZipEntries goos binDir serverDest serverName fs found rest

/-- `Manager.extractFromZip`. -/
def extractFromZip (goos : String) (fs : FS) (binDir serverDest : String)
    (openFail : Bool) (entries : List ZipEntry) : FS × Bool :=
  if openFail then (fs, false)
  else
    let serverName := if goos = "windows" then "llama-server.exe" else "llama-server"
    extractZipEntries goos binDir serverDest serverName fs false entries

/-- One entry of a tar archive, with the outcomes of `os.Create` and
`io.Copy` when the entry is extracted. -/
structure TarEntry where
  name : String
  data : List Nat
  createFail : Bool
  copyFailAfter : Option Nat
  deriving DecidableEq

/-- The entry loop of `extractFromTarGz`: only the entry whose base name
is `llama-server` is extracted; create and copy errors abort (a failed
copy leaves the partial file at `serverDest`, the code has no cleanup). -/
def extractTarEntries (serverDest : String) : FS → Bool → List TarEntry → FS × Bool
  | fs, found, [] => (fs, found)
  | fs, found, e :: rest =>
      if baseName e.name = "llama-server" then
        if e.createFail then (fs, false)
        else
          match e.copyFailAfter with
          | some k => (fsSet fs serverDest (List.take k e.data), false)
          | none => extractTarEntries serverDest (fsSet fs serverDest e.data) true rest
      else extractTarEntries serverDest fs found rest

/-- `Manager.extractFromTarGz`.  `readErr` models a `tar.Reader` error
after the listed entries. -/
def extractFromTarGz (fs : FS) (serverDest : String)
    (openFail gzipFail readErr : Bool) (entries : List TarEntry) : FS × Bool :=
  if openFail then (fs, false)
  else if gzipFail then (fs, false)
  else
    match extractTarEntries serverDest fs false entries with
    | (fs', found) => if readErr then (fs', false) else (fs', found)

/-- The contents and failure modes of the downloaded archive, as seen by
`extractBinaries`. -/
structure ArchiveInput where
  zipOpenFail : Bool
  zipEntries : List ZipEntry
  targzOpenFail : Bool
  gzipFail : Bool
  tarReadErr : Bool
  tarEntries : List TarEntry
  deriving DecidableEq

/-- `Manager.extractBinaries`: dispatch on the archive suffix. -/
def extractBinaries (goos : String) (fs : FS) (binDir archivePath serverDest : String)
    (arc : ArchiveInput) : FS × Bool :=
  if strEndsWith (lowerStr archivePath) ".tar.gz" then
    extractFromTarGz fs serverDest arc.targzOpenFail arc.gzipFail arc.tarReadErr arc.tarEntries
  else
    extractFromZip goos fs binDir serverDest arc.zipOpenFail arc.zipEntries

/-- `Config.BackendBinaryPath` (with `filepath.Join` as `/`). -/
def backendBinaryPath (goos binDir : String) : String :=
  binDir ++ "/" ++ (if goos = "windows" then "llama-server.exe" else "llama-server")

/-- Environment of one `EnsureBackend` call: what `findRelease` returns
(`none` = error; otherwise download URL and asset name), the download
environment and the archive contents. -/
structure EnsureEnv where
  findRelease : Option (String × String)
  dl : DlInput
  archive : ArchiveInput
  deriving DecidableEq

/-- `Manager.EnsureBackend`: return `nil` immediately if the binary is
already present (`os.Stat` succeeds); otherwise resolve a release asset,
download the archive next to the binary, extract, delete the archive and
(on non-Windows) chmod the binary (a permission change, not a content
change, so not reflected in `FS`).  The `Bool` is `true` on success. -/
def ensureBackend (goos : String) (fs : FS) (binDir : String) (env : EnsureEnv) : FS × Bool :=
  match fs (backendBinaryPath goos binDir) with
  | some _ => (fs, true)
  | none =>
    match env.findRelease with
    | none => (fs, false)
    | some (_, assetName) =>
      let zipPath := binDir ++ "/" ++ assetName
      match downloadFile fs zipPath env.dl with
      | (fs1, false) => (fs1, false)
      | (fs1, true) =>
        match extractBinaries goos fs1 binDir zipPath (backendBinaryPath goos binDir) env.archive with
        | (fs2, false) => (fs2, false)
        | (fs2, true) => (fsRemove fs2 zipPath, true)

/-! ## internal/config -/

/-- `config.AppName`. -/
def AppName : String := "llmgw"

/-- `config.DefaultPort`. -/
def DefaultPort : Nat := 8080

/-- `config.DefaultCtx`. -/
def DefaultCtx : Nat := 4096

/-- `config.BackendPort` (the fixed internal engine port). -/
def BackendPort : Nat := 39741

/-- `config.Config`. -/
structure Config where
  homeDir : String
  modelsDir : String
  binDir : String
  port : Nat
  ctxSize : Nat
  backendPort : Nat
  verbose : Bool
  quant : String
  deriving DecidableEq

/-- `config.New`: defaults rooted at the user home directory (passed in,
since `os.UserHomeDir` is an environment read; empty means the lookup
failed and `"."` is used).  `filepath.Join` is modelled with `/`. -/
def configNew (home : String) : Config :=
  let home := if home = "" then "." else home
  let appDir := home ++ "/." ++ AppName
  { homeDir := appDir
    modelsDir := appDir ++ "/models"
    binDir := appDir ++ "/bin"
    port := DefaultPort
    ctxSize := DefaultCtx
    backendPort := BackendPort
    verbose := false
    quant := "" }

/-- The configuration produced by `cmdRun` after parsing flags: it starts
from `config.New()` and overwrites `Port`, `CtxSize`, `Verbose` and
`Quant` from the flag values.  `BackendPort` is never touched. -/
def cmdRunConfig (home : String) (port ctx : Nat) (verbose : Bool) (quant : String) : Config :=
  { configNew home with port := port, ctxSize := ctx, verbose := verbose, quant := quant }

/-- `Manager.BackendURL`: the internal loopback base URL. -/
def backendURL (cfg : Config) : String :=
  "http://127.0.0.1:" ++ toString cfg.backendPort

/-! ## internal/backend: WaitReady

`WaitReady` polls `http://127.0.0.1:<backendPort>/health` every 500 ms
until the deadline.  One loop iteration observes: the result of the
`http.Get` (`healthStatus`, `none` on a connection error) and the state of
`m.cmd` used by the process-died check.  Per the `os/exec` contract,
`cmd.ProcessState` is nil until a `Wait` (or `Run`) on the command
completes; `exited` is `ProcessState.Exited()` when it is set.  `WaitReady`
itself never calls `Wait`, so within a run of `WaitReady`,
`processStateSet` can only be true if a concurrent `Stop()` completed a
`Wait`. -/

/-- What one polling iteration of `WaitReady` observes. -/
structure PollObs where
  healthStatus : Option Nat
  processStateSet : Bool
  exited : Bool
  deriving DecidableEq

/-- The three outcomes of `WaitReady`: the `nil` return on an HTTP 200
health response, the `"llama-server process exited unexpectedly"` error,
and the `"backend not ready after <timeout>"` error.  The two error
returns are built at distinct `fmt.Errorf` sites with distinct messages. -/
inductive WaitResult where
  | ready
  | processExited
  | readinessTimeout
  deriving DecidableEq

/-- The polling loop of `WaitReady`, starting at iteration `i` with
`fuel` iterations left before the deadline (`timeout / 500ms` rounded up;
positive for any positive timeout).  Each iteration: return `ready` on a
200 health response; otherwise return `processExited` if
`cmd.ProcessState != nil && cmd.ProcessState.Exited()`; otherwise sleep
and retry.  When the deadline passes, return `readinessTimeout`. -/
def waitReadyFrom (obs : Nat → PollObs) : Nat → Nat → WaitResult
  | 0, _ => .readinessTimeout
  | fuel + 1, i =>
      let o := obs i
      if o.healthStatus = some 200 then .ready
      else if o.processStateSet && o.exited then .processExited
      else waitReadyFrom obs fuel (i + 1)

/-- `Manager.WaitReady` with a deadline allowing `polls` loop iterations. -/
def waitReady (obs : Nat → PollObs) (polls : Nat) : WaitResult :=
  waitReadyFrom obs polls 0

/-- A run in which the child process has exited before the first poll and
never answers `/health` (every `http.Get` fails), and no concurrent
`Stop()`/`Wait` runs: since `WaitReady` never calls `Wait`, `os/exec`
leaves `cmd.ProcessState` nil for the whole run even though the child is
gone, so `processStateSet` is false at every iteration. -/
def deadChildObs : Nat → PollObs :=
  fun _ => { healthStatus := none, processStateSet := false, exited := true }

/-- The same dead child, but as `WaitReady`'s check assumes: with
`cmd.ProcessState` already populated (which would require a completed
`cmd.Wait()`, e.g. by a concurrent `Stop()`). -/
def reapedDeadChildObs : Nat → PollObs :=
  fun _ => { healthStatus := none, processStateSet := true, exited := true }

/-! ## internal/backend: Stop -/

/-- Status of the spawned child process. -/
inductive ProcStatus where
  | running
  | exited
  deriving DecidableEq

/-- The state of `m.cmd` (`*exec.Cmd`): `process = none` models
`cmd.Process == nil` (spawn failed); `waited` records whether `Wait` has
completed (populating `ProcessState`, reaping the child). -/
structure CmdState where
  process : Option ProcStatus
  waited : Bool
  deriving DecidableEq

/-- The mutable state of `backend.Manager` that `Stop` touches: the `cmd`
field (`none` before `Start` is ever called).  The `cfg` field is
immutable and never written by `Stop`, so it is omitted. -/
structure ManagerState where
  cmd : Option CmdState
  deriving DecidableEq

/-- `Manager.Stop`: if a command with a non-nil `Process` exists, send
`Kill` and `Wait` for it.  `Kill` on an already-dead process returns an
error, and a repeated `Wait` returns an error; both are ignored by the
code.  After `Stop` the child has exited and been reaped.  On any other
state `Stop` returns immediately.  Totality of this function is the
no-deadlock/no-panic claim: every branch returns. -/
def stop (m : ManagerState) : ManagerState :=
  match m.cmd with
  | none => m
  | some c =>
    match c.process with
    | none => m
    | some _ => { cmd := some { process := some .exited, waited := true } }

/-! ## internal/api: types (types.go) -/

/-- `api.ModelInfo`. -/
structure ModelInfo where
  id : String
  object : String
  created : Int
  ownedBy : String
  deriving DecidableEq

/-- `api.ModelList`. -/
structure ModelList where
  object : String
  data : List ModelInfo
  deriving DecidableEq

/-- `api.ErrorDetail` (`code` is omitempty and left `""` by `writeError`). -/
structure ErrorDetail where
  message : String
  type : String
  code : String
  deriving DecidableEq

/-- `api.ErrorResponse`. -/
structure ErrorResponse where
  error : ErrorDetail
  deriving DecidableEq

/-! ## internal/api: Server -/

/-- `api.Server`: immutable configuration plus the reverse proxy's
`FlushInterval`, in milliseconds (`time.Duration` at millisecond
granularity). -/
structure Server where
  port : Nat
  backendBase : String
  modelName : String
  proxyFlushIntervalMs : Int
  deriving DecidableEq

/-- `api.NewServer`: builds the single-host reverse proxy for the backend
URL and sets `proxy.FlushInterval = 50 * time.Millisecond`. -/
def NewServer (port : Nat) (backendBase modelName : String) : Server :=
  { port := port
    backendBase := backendBase
    modelName := modelName
    proxyFlushIntervalMs := 50 }

/-- The flush bound the configured proxy guarantees while copying a
response body, per the `net/http/httputil` contract for
`ReverseProxy.FlushInterval`: a positive value flushes to the client at
least every `FlushInterval` (so partial output is relayed incrementally
and the response is never buffered whole); zero does no periodic
flushing.  Returns `some bound` (in ms) when incremental relaying is
guaranteed. -/
def streamingFlushBoundMs (s : Server) : Option Int :=
  if 0 < s.proxyFlushIntervalMs then some s.proxyFlushIntervalMs else none

/-- An inbound HTTP request, as far as the gateway routing inspects it. -/
structure Request where
  method : String
  path : String
  deriving DecidableEq

/-- Response bodies the gateway can produce.  `proxied` stands for
whatever the reverse proxy streamed back from the engine. -/
inductive Body where
  | empty
  | modelList (l : ModelList)
  | errorJson (e : ErrorResponse)
  | proxied
  | rootInfo (model : String)
  | notFoundText
  deriving DecidableEq

/-- An HTTP response: status, headers in the order they are set, body. -/
structure Response where
  status : Nat
  headers : List (String × String)
  body : Body
  deriving DecidableEq

/-- The result of serving one request: the response, whether the request
was relayed to the internal engine, and whether the handler wrapped by
`cors` was invoked (always `true` on unwrapped routes). -/
structure Served where
  response : Response
  forwarded : Bool
  innerInvoked : Bool
  deriving DecidableEq

/-- The three CORS headers `Server.cors` sets on every request. -/
def corsHeaders : List (String × String) :=
  [("Access-Control-Allow-Origin", "*"),
   ("Access-Control-Allow-Methods", "GET, POST, OPTIONS"),
   ("Access-Control-Allow-Headers", "Content-Type, Authorization")]

/-- `Server.writeError`: a structured JSON error body. -/
def writeError (status : Nat) (msg errType : String) : Response :=
  { status := status
    headers := [("Content-Type", "application/json")]
    body := .errorJson { error := { message := msg, type := errType, code := "" } } }

/-- `Server.proxyPost`: reject any non-POST method with 405 and an
`invalid_request_error` body; otherwise hand the request to the reverse
proxy (`backend` gives the engine's response).  The second component
records whether the request reached the engine. -/
def proxyPost (backend : Request → Response) (r : Request) : Response × Bool :=
  if r.method ≠ "POST" then
    (writeError 405 "method not allowed" "invalid_request_error", false)
  else (backend r, true)

/-- `Server.handleModels`: a locally synthesized single-entry listing.
`now` is `time.Now().Unix()` at the moment of the call.  The method is
never inspected and the engine is never contacted; the 200 status is
net/http's implicit status on the first body write. -/
def handleModels (s : Server) (now : Int) (_ : Request) : Response × Bool :=
  ({ status := 200
     headers := [("Content-Type", "application/json")]
     body := .modelList
       { object := "list"
         data := [{ id := s.modelName, object := "model", created := now, ownedBy := "local" }] } },
   false)

/-- `Server.handleHealth`: forward a GET to the engine's `/health`
(`backendHealth` is `none` when that `http.Get` fails), turning a
connection failure into a 503 structured error. -/
def handleHealth (backendHealth : Option Response) : Response × Bool :=
  match backendHealth with
  | none => (writeError 503 "backend unavailable" "server_error", true)
  | some resp =>
      ({ status := resp.status
         headers := [("Content-Type", "application/json")]
         body := resp.body }, true)

/-- `Server.handleRoot`: static info JSON at `/`, 404 elsewhere. -/
def handleRoot (s : Server) (r : Request) : Response × Bool :=
  if r.path ≠ "/" then
    ({ status := 404, headers := [], body := .notFoundText }, false)
  else
    ({ status := 200
       headers := [("Content-Type", "application/json")]
       body := .rootInfo s.modelName }, false)

/-- `Server.cors`: set the three CORS headers, answer `OPTIONS` with an
empty 204 without calling the wrapped handler, otherwise run it. -/
def cors (next : Request → Response × Bool) (r : Request) : Served :=
  if r.method = "OPTIONS" then
    { response := { status := 204, headers := corsHeaders, body := .empty }
      forwarded := false
      innerInvoked := false }
  else
    let (resp, fwd) := next r
    { response := { resp with headers := corsHeaders ++ resp.headers }
      forwarded := fwd
      innerInvoked := true }

/-- The mux registered by `Server.ListenAndServe`: exact-path handlers for
the three proxied routes, `/v1/models` and `/health`, with `/` as the
catch-all.  `backend` is the engine as seen through the reverse proxy,
`backendHealth` the engine's answer to the health probe, `now` the clock
reading for this request. -/
def listenAndServeMux (s : Server) (backend : Request → Response)
    (backendHealth : Option Response) (now : Int) (r : Request) : Served :=
  if r.path = "/v1/chat/completions" ∨ r.path = "/v1/completions" ∨ r.path = "/v1/embeddings" then
    cors (proxyPost backend) r
  else if r.path = "/v1/models" then
    cors (handleModels s now) r
  else if r.path = "/health" then
    let (resp, fwd) := handleHealth backendHealth
    { response := resp, forwarded := fwd, innerInvoked := true }
  else
    let (resp, fwd) := handleRoot s r
    { response := resp, forwarded := fwd, innerInvoked := true }

/-! ## Concrete example inputs used by counterexamples and witnesses -/

/-- An empty file system: no file exists anywhere. -/
def exFS0 : FS := fun _ => none

/-- A file system holding only the engine binary at `/b/llama-server`. -/
def exFS1 : FS := fun p => if p = "/b/llama-server" then some [9] else none

/-- A download environment in which every step succeeds, delivering `[7]`. -/
def exDlOk : DlInput :=
  { mkdirFail := false, httpErr := false, status := 200, data := [7]
    createTmpFail := false, copyFailAfter := none, renameFail := false }

/-- A download environment in which `http.Get` itself fails. -/
def exDlHttpErr : DlInput :=
  { mkdirFail := false, httpErr := true, status := 0, data := []
    createTmpFail := false, copyFailAfter := none, renameFail := false }

/-- A zip archive containing `llama-server`, whose extraction copy fails
after 1 byte of the intended `[1, 2, 3]`. -/
def exArchiveBadCopy : ArchiveInput :=
  { zipOpenFail := false
    zipEntries := [{ name := "build/bin/llama-server", data := [1, 2, 3]
                     openFail := false, createFail := false, copyFailAfter := some 1 }]
    targzOpenFail := false, gzipFail := false, tarReadErr := false, tarEntries := [] }

/-- An `EnsureBackend` environment whose download succeeds but whose
extraction fails partway through writing the binary. -/
def exEnvExtractFail : EnsureEnv :=
  { findRelease := some ("https://example.com/a.zip", "a.zip")
    dl := exDlOk, archive := exArchiveBadCopy }

/-- A gateway server at the default ports, and a stub engine. -/
def exServer : Server := NewServer 8080 "http://127.0.0.1:39741" "TheBloke/TinyLlama-1.1B-Chat-v1.0-GGUF"

/-- A stub engine response used where the reverse proxy's upstream answer
is irrelevant. -/
def exBackend : Request → Response := fun _ => { status := 200, headers := [], body := .proxied }

/-! ## C1 -/

/-- C1 (code bug): a child process that exits before ever answering
`/health` does NOT make `WaitReady` return the process-exited error.
`WaitReady`'s died-check reads `cmd.ProcessState`, which `os/exec` only
populates when `Wait`/`Run` completes — and `WaitReady` never calls
`Wait` — so on a crashed child with no concurrent `Stop()` the check
never fires (second conjunct) and the loop runs to the deadline,
returning the readiness-timeout error (first conjunct).  The third
conjunct shows the branch the code intended: had `ProcessState` been
populated, the same run would return the process-exited error. -/
theorem waitReady_dead_child_times_out :
    waitReady deadChildObs 3 = .readinessTimeout ∧
    waitReady deadChildObs 3 ≠ .processExited ∧
    waitReady reapedDeadChildObs 3 = .processExited := by
  decide

/-! ## C2 -/

/-- C2 (counterexample): starting from a file system with no engine
binary, an `EnsureBackend` run whose download succeeds but whose
extraction `io.Copy` fails after 1 byte returns an error AND leaves the
1-byte partial executable `[1]` (of the intended `[1, 2, 3]`) at the
expected binary path — refuting the claim that no failure case leaves a
partially-written executable where none existed before. -/
theorem ensureBackend_partial_binary_on_extract_failure :
    exFS0 (backendBinaryPath "linux" "/b") = none ∧
    (ensureBackend "linux" exFS0 "/b" exEnvExtractFail).2 = false ∧
    (ensureBackend "linux" exFS0 "/b" exEnvExtractFail).1 (backendBinaryPath "linux" "/b")
      = some [1] ∧
    ([1] : List Nat) ≠ [1, 2, 3] := by
  decide

/-- Helper: every failure branch of the fetch path of
`downloader.DownloadFile` leaves the file system unchanged at any path
other than the temporary `dest + ".download"` file. -/
theorem downloadFileFetch_fail_agree (fs : FS) (dest : String) (inp : DlInput) (p : String)
    (hp : p ≠ dest ++ ".download")
    (hfail : (downloadFileFetch fs dest inp).2 = false) :
    (downloadFileFetch fs dest inp).1 p = fs p := by
  unfold downloadFileFetch at hfail ⊢
  split_ifs at hfail ⊢ <;> try rfl
  all_goals cases hft : inp.copyFailAfter <;> simp_all [fsRemove, fsSet]

/-- Helper: `downloader.DownloadFile` on failure leaves the file system
unchanged at any path other than its temporary file. -/
theorem downloadFile_fail_agree (fs : FS) (dest : String) (inp : DlInput) (p : String)
    (hp : p ≠ dest ++ ".download")
    (hfail : (downloadFile fs dest inp).2 = false) :
    (downloadFile fs dest inp).1 p = fs p := by
  unfold downloadFile at hfail ⊢
  cases hdest : fs dest with
  | none =>
      rw [hdest] at hfail
      exact downloadFileFetch_fail_agree fs dest inp p hp hfail
  | some content =>
      rw [hdest] at hfail
      have hfail' : (if content.length > 0 then (fs, true)
          else downloadFileFetch fs dest inp).2 = false := hfail
      show (if content.length > 0 then (fs, true)
          else downloadFileFetch fs dest inp).1 p = fs p
      by_cases hl : content.length > 0
      · rw [if_pos hl] at hfail'
        simp at hfail'
      · rw [if_neg hl] at hfail' ⊢
        exact downloadFileFetch_fail_agree fs dest inp p hp hfail'

/-- C2 (amended): when the expected binary is absent, an `EnsureBackend`
run that fails before extraction begins — release lookup fails, or the
archive download fails — reports the failure and leaves no file at the
expected binary path (the download writes only to a temp file it removes
on failure).  The hypothesis `hne` records that the binary path is not
the download's temp path (true in the program, where the asset name ends
in `.zip` or `.tar.gz`). -/
theorem ensureBackend_fail_before_extraction_leaves_no_binary
    (goos : String) (fs : FS) (binDir url asset : String) (dl : DlInput) (arc : ArchiveInput)
    (h0 : fs (backendBinaryPath goos binDir) = none)
    (hne : backendBinaryPath goos binDir ≠ (binDir ++ "/" ++ asset) ++ ".download")
    (hdl : (downloadFile fs (binDir ++ "/" ++ asset) dl).2 = false) :
    ensureBackend goos fs binDir { findRelease := none, dl := dl, archive := arc } = (fs, false) ∧
    (ensureBackend goos fs binDir
        { findRelease := some (url, asset), dl := dl, archive := arc }).2 = false ∧
    (ensureBackend goos fs binDir
        { findRelease := some (url, asset), dl := dl, archive := arc }).1
      (backendBinaryPath goos binDir) = none := by
  have hag : (downloadFile fs (binDir ++ "/" ++ asset) dl).1 (backendBinaryPath goos binDir)
      = fs (backendBinaryPath goos binDir) :=
    downloadFile_fail_agree fs (binDir ++ "/" ++ asset) dl _ hne hdl
  rcases hr : downloadFile fs (binDir ++ "/" ++ asset) dl with ⟨fs1, b⟩
  rw [hr] at hdl hag
  cases b with
  | true => simp at hdl
  | false =>
      refine ⟨by simp [ensureBackend, h0], ?_, ?_⟩ <;>
        simp [ensureBackend, h0, hr, hag]

/-- C2 (witness for the amended theorem): concrete failing-download run
on an empty file system. -/
theorem ensureBackend_fail_before_extraction_leaves_no_binary_witness :
    ensureBackend "linux" exFS0 "/b"
        { findRelease := none, dl := exDlHttpErr, archive := exArchiveBadCopy }
      = (exFS0, false) ∧
    (ensureBackend "linux" exFS0 "/b"
        { findRelease := some ("https://example.com/a.zip", "a.zip")
          dl := exDlHttpErr, archive := exArchiveBadCopy }).2 = false ∧
    (ensureBackend "linux" exFS0 "/b"
        { findRelease := some ("https://example.com/a.zip", "a.zip")
          dl := exDlHttpErr, archive := exArchiveBadCopy }).1
      (backendBinaryPath "linux" "/b") = none :=
  ensureBackend_fail_before_extraction_leaves_no_binary "linux" exFS0 "/b"
    "https://example.com/a.zip" "a.zip" exDlHttpErr exArchiveBadCopy
    (by decide) (by decide) (by decide)

/-! ## C3 -/

/-- C3: `NewServer` always configures the reverse proxy with a fixed
50 ms `FlushInterval`.  Per the `net/http/httputil` contract encoded in
`streamingFlushBoundMs`, this positive interval guarantees the response
body is flushed to the client at least every 50 ms while being copied —
tens of milliseconds, never whole-response buffering. -/
theorem newServer_flush_interval_50ms (port : Nat) (backendBase modelName : String) :
    (NewServer port backendBase modelName).proxyFlushIntervalMs = 50 ∧
    streamingFlushBoundMs (NewServer port backendBase modelName) = some 50 ∧
    (10 : Int) ≤ 50 ∧ (50 : Int) < 100 := by
  refine ⟨rfl, ?_, by norm_num, by norm_num⟩
  simp [streamingFlushBoundMs, NewServer]

/-! ## C4 -/

/-- C4: a `GET /v1/models` is answered locally with status 200 and a
one-element listing whose `id` is the model name fixed at construction
and whose `created` stamp is the clock reading of this call (so it is
regenerated per call), and the request is never forwarded to the
engine. -/
theorem models_get_single_entry (s : Server) (backend : Request → Response)
    (backendHealth : Option Response) (now : Int) :
    listenAndServeMux s backend backendHealth now { method := "GET", path := "/v1/models" } =
      { response :=
          { status := 200
            headers := corsHeaders ++ [("Content-Type", "application/json")]
            body := .modelList
              { object := "list"
                data := [{ id := s.modelName, object := "model"
                           created := now, ownedBy := "local" }] } }
        forwarded := false
        innerInvoked := true } := by
  rfl

/-! ## C5 -/

/-- C5: a request to any of the three proxied routes whose method is
neither `POST` nor `OPTIONS` is answered with 405 and a structured error
body of type `"invalid_request_error"`, and nothing is forwarded to the
engine. -/
theorem proxy_routes_reject_non_post (s : Server) (backend : Request → Response)
    (backendHealth : Option Response) (now : Int) (method path : String)
    (hp : path = "/v1/chat/completions" ∨ path = "/v1/completions" ∨ path = "/v1/embeddings")
    (hm : method ≠ "POST") (ho : method ≠ "OPTIONS") :
    listenAndServeMux s backend backendHealth now { method := method, path := path } =
      { response :=
          { status := 405
            headers := corsHeaders ++ [("Content-Type", "application/json")]
            body := .errorJson
              { error := { message := "method not allowed"
                           type := "invalid_request_error", code := "" } } }
        forwarded := false
        innerInvoked := true } := by
  unfold listenAndServeMux
  rw [if_pos hp]
  simp [cors, proxyPost, writeError, hm, ho]

/-- C5 (witness): a `GET` to `/v1/chat/completions`. -/
theorem proxy_routes_reject_non_post_witness :
    listenAndServeMux exServer exBackend none 0
        { method := "GET", path := "/v1/chat/completions" } =
      { response :=
          { status := 405
            headers := corsHeaders ++ [("Content-Type", "application/json")]
            body := .errorJson
              { error := { message := "method not allowed"
                           type := "invalid_request_error", code := "" } } }
        forwarded := false
        innerInvoked := true } :=
  proxy_routes_reject_non_post exServer exBackend none 0 "GET" "/v1/chat/completions"
    (Or.inl rfl) (by decide) (by decide)

/-! ## C6 -/

/-- C6: an `OPTIONS` request to any cors-wrapped route is answered with
an empty 204 carrying exactly the three CORS headers, the wrapped handler
is never invoked, and nothing is forwarded to the engine. -/
theorem options_preflight_204 (s : Server) (backend : Request → Response)
    (backendHealth : Option Response) (now : Int) (path : String)
    (hp : path = "/v1/chat/completions" ∨ path = "/v1/completions" ∨
          path = "/v1/embeddings" ∨ path = "/v1/models") :
    listenAndServeMux s backend backendHealth now { method := "OPTIONS", path := path } =
      { response := { status := 204, headers := corsHeaders, body := .empty }
        forwarded := false
        innerInvoked := false } ∧
    corsHeaders = [("Access-Control-Allow-Origin", "*"),
                   ("Access-Control-Allow-Methods", "GET, POST, OPTIONS"),
                   ("Access-Control-Allow-Headers", "Content-Type, Authorization")] := by
  refine ⟨?_, rfl⟩
  rcases hp with h | h | h | h <;> subst h <;> rfl

/-- C6 (witness): preflight to `/v1/models`. -/
theorem options_preflight_204_witness :
    listenAndServeMux exServer exBackend none 0 { method := "OPTIONS", path := "/v1/models" } =
      { response := { status := 204, headers := corsHeaders, body := .empty }
        forwarded := false
        innerInvoked := false } ∧
    corsHeaders = [("Access-Control-Allow-Origin", "*"),
                   ("Access-Control-Allow-Methods", "GET, POST, OPTIONS"),
                   ("Access-Control-Allow-Headers", "Content-Type, Authorization")] :=
  options_preflight_204 exServer exBackend none 0 "/v1/models"
    (Or.inr (Or.inr (Or.inr rfl)))

/-! ## C7 -/

/-- C7 (counterexample): `Stop` called after the child has already
exited on its own — `cmd.Process` set, the process dead, nobody has
called `Wait` yet — is NOT a no-op: the code runs `Kill`/`Wait`, and the
`Wait` reaps the child, populating `cmd.ProcessState` (`waited` flips
from `false` to `true`), an observable supervisor-state change (it is
exactly what would enable `WaitReady`'s died-check). -/
theorem stop_mutates_unreaped_exited_child :
    stop { cmd := some { process := some .exited, waited := false } } ≠
      { cmd := some { process := some .exited, waited := false } } := by
  decide

/-- C7 (amended): `Stop` is safe in every supervisor state — it is a
total function (no error, no panic, no blocking: `Kill` on a dead
process and a repeated `Wait` return errors the code ignores) — and it
is the identity when the process was never started (`cmd == nil`), when
the spawn failed (`cmd.Process == nil`), and when the child has already
exited and been reaped; when the child has exited without being reaped,
`Stop` reaps it, reaching the reaped state; and a second call never
changes the state reached by the first. -/
theorem stop_safe_idempotent (m : ManagerState) :
    (m.cmd = none → stop m = m) ∧
    (∀ c, m.cmd = some c → c.process = none → stop m = m) ∧
    (∀ c, m.cmd = some c → c.process = some .exited → c.waited = true → stop m = m) ∧
    (∀ c, m.cmd = some c → c.process = some .exited → c.waited = false →
      stop m = { cmd := some { process := some .exited, waited := true } }) ∧
    stop (stop m) = stop m := by
  refine ⟨?_, ?_, ?_, ?_, ?_⟩
  · intro h; simp [stop, h]
  · intro c h hp; simp [stop, h, hp]
  · intro c h hp hw
    rcases m with ⟨cmd⟩
    rcases c with ⟨proc, w⟩
    simp only at h
    subst h
    simp only at hp hw
    subst hp; subst hw
    rfl
  · intro c h hp hw
    simp [stop, h, hp]
  · rcases m with ⟨_ | ⟨_ | st, w⟩⟩ <;> rfl

/-- C7 (witness for the amended theorem): never-started,
already-exited-and-reaped, exited-but-unreaped, and a double call on a
running process. -/
theorem stop_safe_idempotent_witness :
    stop { cmd := none } = { cmd := none } ∧
    stop { cmd := some { process := some .exited, waited := true } } =
      { cmd := some { process := some .exited, waited := true } } ∧
    stop { cmd := some { process := some .exited, waited := false } } =
      { cmd := some { process := some .exited, waited := true } } ∧
    stop (stop { cmd := some { process := some .running, waited := false } }) =
      stop { cmd := some { process := some .running, waited := false } } :=
  ⟨(stop_safe_idempotent { cmd := none }).1 rfl,
   (stop_safe_idempotent _).2.2.1 { process := some .exited, waited := true } rfl rfl rfl,
   (stop_safe_idempotent { cmd := some { process := some .exited, waited := false } }).2.2.2.1
     { process := some .exited, waited := false } rfl rfl rfl,
   (stop_safe_idempotent { cmd := some { process := some .running, waited := false } }).2.2.2.2⟩

/-! ## C8 -/

/-- C8: `EnsureBackend` is idempotent: when the engine binary already
exists at its expected path, the call succeeds and returns the file
system unchanged — the `os.Stat` hit returns before any release lookup,
download or extraction code runs. -/
theorem ensureBackend_noop_when_binary_exists (goos : String) (fs : FS) (binDir : String)
    (env : EnsureEnv) (c : List Nat)
    (h : fs (backendBinaryPath goos binDir) = some c) :
    ensureBackend goos fs binDir env = (fs, true) := by
  simp [ensureBackend, h]

/-- C8 (witness): binary already present; an environment that would
download and extract is never consulted. -/
theorem ensureBackend_noop_when_binary_exists_witness :
    ensureBackend "linux" exFS1 "/b" exEnvExtractFail = (exFS1, true) :=
  ensureBackend_noop_when_binary_exists "linux" exFS1 "/b" exEnvExtractFail [9] (by decide)

/-! ## C9 -/

/-- C9 (counterexample): the `-port` flag is not validated against the
internal port: `llmgw run <model> -port 39741` makes the externally
advertised gateway port equal to the internal engine port, refuting
"never equal".  (`BackendURL` still reports the loopback endpoint on
39741.) -/
theorem port_flag_collides_with_backend_port :
    (cmdRunConfig "/home/u" 39741 4096 false "").port =
      (cmdRunConfig "/home/u" 39741 4096 false "").backendPort ∧
    backendURL (cmdRunConfig "/home/u" 39741 4096 false "") = "http://127.0.0.1:39741" := by
  refine ⟨rfl, ?_⟩
  decide

/-- C9 (amended): `BackendURL` always returns the loopback endpoint on
the fixed internal port 39741; `cmdRun` never changes `BackendPort`, the
default external port 8080 differs from it, and the two ports differ for
every `-port` value other than 39741 itself — but nothing prevents the
user from choosing 39741. -/
theorem backendURL_fixed_internal_loopback (home : String) (port ctx : Nat)
    (verbose : Bool) (quant : String) :
    backendURL (cmdRunConfig home port ctx verbose quant) = "http://127.0.0.1:39741" ∧
    (cmdRunConfig home port ctx verbose quant).backendPort = BackendPort ∧
    (configNew home).port = DefaultPort ∧
    DefaultPort ≠ BackendPort ∧
    (port ≠ BackendPort →
      (cmdRunConfig home port ctx verbose quant).port ≠
        (cmdRunConfig home port ctx verbose quant).backendPort) := by
  refine ⟨?_, rfl, rfl, by decide, ?_⟩
  · show "http://127.0.0.1:" ++ toString (39741 : Nat) = "http://127.0.0.1:39741"
    decide
  · intro h
    simpa [cmdRunConfig, configNew, BackendPort] using h

/-- C9 (witness for the amended theorem): the default-like choice
`-port 9000` keeps the two ports distinct. -/
theorem backendURL_fixed_internal_loopback_witness :
    backendURL (cmdRunConfig "/home/u" 9000 4096 false "") = "http://127.0.0.1:39741" ∧
    (cmdRunConfig "/home/u" 9000 4096 false "").port ≠
      (cmdRunConfig "/home/u" 9000 4096 false "").backendPort :=
  ⟨(backendURL_fixed_internal_loopback "/home/u" 9000 4096 false "").1,
   (backendURL_fixed_internal_loopback "/home/u" 9000 4096 false "").2.2.2.2 (by decide)⟩

/-! ## C10 -/

/-- C10: `handleModels` never inspects the method, so every non-`OPTIONS`
method on `/v1/models` — `POST`, `PUT`, `DELETE`, anything — yields the
same 200 single-entry listing as `GET`, not a 405; only `OPTIONS` is
intercepted earlier by the CORS wrapper. -/
theorem models_any_method_200 (s : Server) (backend : Request → Response)
    (backendHealth : Option Response) (now : Int) (method : String)
    (hm : method ≠ "OPTIONS") :
    listenAndServeMux s backend backendHealth now { method := method, path := "/v1/models" } =
      { response :=
          { status := 200
            headers := corsHeaders ++ [("Content-Type", "application/json")]
            body := .modelList
              { object := "list"
                data := [{ id := s.modelName, object := "model"
                           created := now, ownedBy := "local" }] } }
        forwarded := false
        innerInvoked := true } := by
  simp [listenAndServeMux, cors, handleModels, hm]

/-- C10 (witness): a `DELETE` on `/v1/models` still gets the listing. -/
theorem models_any_method_200_witness :
    listenAndServeMux exServer exBackend none 0 { method := "DELETE", path := "/v1/models" } =
      { response :=
          { status := 200
            headers := corsHeaders ++ [("Content-Type", "application/json")]
            body := .modelList
              { object := "list"
                data := [{ id := exServer.modelName, object := "model"
                           created := 0, ownedBy := "local" }] } }
        forwarded := false
        innerInvoked := true } :=
  models_any_method_200 exServer exBackend none 0 "DELETE" (by decide)

end LLMGW
